import Mathlib

/-!
Verification of the build-artifact lifecycle manager in
`tools/batools/pcommand2.py`: manifest-diff garbage collection of orphaned
asset files (`clean_orphaned_assets`), timestamp-based incremental staging
(`update_cmake_prefab_lib`), and selective remote-cache prerequisite
fetching (`win_ci_install_prereqs`).

Python file reads, `os.walk`, `os.unlink`, `os.path.getmtime` and
`subprocess` calls are modelled by explicit parameters: the walked file
list, an `unlinkOk` oracle saying which unlinks succeed, option-typed
modification times, and effect lists recording the external commands run.
-/

namespace Ballistica

/-- Boolean test that the string `p` is a leading segment of `s`
(Python `s.startswith(p)`). -/
def strStartsWith (p s : String) : Bool := decide (p.data <+: s.data)

/-- Boolean test that the string `p` occurs inside `s`
(Python `p in s`). -/
def strContains (p s : String) : Bool := decide (p.data <:+: s.data)

/-! ## clean_orphaned_assets

The source reads `src/assets/.asset_manifest_public.json` and
`src/assets/.asset_manifest_private.json` as JSON lists of strings, unions
them into a set, walks `build/assets`, and unlinks every file whose
root-relative path (obtained as `fpath[13:]`, dropping the leading
`build/assets/`) is not in the unioned manifest; afterwards it prunes
empty directories with `find build/assets -depth -empty -type d -delete`.
-/

/-- Embeds the slice `fpath[13:]` of `clean_orphaned_assets`: a discovered
path is made manifest-relative by dropping its first 13 characters (the
length of `build/assets/`). -/
def relPath (fpath : String) : String := fpath.drop 13

/-- Dropping 13 characters from a path under `build/assets/` recovers the
root-relative path: the slice width matches the root string. -/
theorem relPath_under_root (r : String) : relPath ("build/assets/" ++ r) = r := by
  apply String.ext
  unfold relPath
  rw [String.data_drop]
  show ("build/assets/".data ++ r.data).drop 13 = r.data
  rw [List.drop_left']
  rfl

/-- Failures of the asset cleanup: a manifest load that raises (missing
file, invalid JSON, or a parsed value `set()` rejects), or a failing
`os.unlink`. -/
inductive CleanErr : Type where
  | manifestRead : CleanErr
  | unlinkFailed : String → CleanErr
deriving DecidableEq, Repr

/-- Embeds the deletion loop of `clean_orphaned_assets`: visit the walked
files in order; a file whose root-relative path is in the manifest is left
untouched; otherwise `os.unlink` is attempted, `unlinkOk` deciding whether
it succeeds.  A failing unlink raises, ending the walk; files already
deleted stay deleted.  Returns the deleted files in walk order together
with the error, if one occurred. -/
def deleteLoop (manifest : List String) (unlinkOk : String → Bool) :
    List String → List String × Option CleanErr
  | [] => ([], none)
  | fpath :: rest =>
    if relPath fpath ∈ manifest then deleteLoop manifest unlinkOk rest
    else if unlinkOk fpath then
      let r := deleteLoop manifest unlinkOk rest
      (fpath :: r.1, r.2)
    else ([], some (CleanErr.unlinkFailed fpath))

/-- Outcome of `clean_orphaned_assets`: the files deleted (in walk order),
the error that ended the run if any, and whether the final
`find … -delete` directory-pruning pass was reached. -/
structure CleanResult : Type where
  deleted : List String
  err : Option CleanErr
  pruneRan : Bool
deriving DecidableEq, Repr

/-- Embeds `clean_orphaned_assets` end to end.  Each manifest argument is
`some entries`, the string elements of the Python set built from the
manifest file, and `none` when building that set raises (see
`loadManifest`, which derives this from the parsed JSON); both loads
happen before any deletion.  The manifests are unioned, the deletion loop
runs over the walked files, and the directory-pruning subprocess runs
only if the loop finished without error. -/
def cleanOrphanedAssets (manifestPublic manifestPrivate : Option (List String))
    (walk : List String) (unlinkOk : String → Bool) : CleanResult :=
  match manifestPublic, manifestPrivate with
  | some m1, some m2 =>
    let r := deleteLoop (m1 ++ m2) unlinkOk walk
    { deleted := r.1, err := r.2, pruneRan := r.2.isNone }
  | _, _ => { deleted := [], err := some CleanErr.manifestRead, pruneRan := false }

/-- A parsed JSON value, as `json.loads` returns it. -/
inductive PyJson : Type where
  | str : String → PyJson
  | num : Int → PyJson
  | boolean : Bool → PyJson
  | null : PyJson
  | arr : List PyJson → PyJson
  | obj : List (String × PyJson) → PyJson

/-- What `set(json.loads(text))` yields, as far as the string membership
tests of the deletion loop are concerned.  Iterating a list yields its
elements, but `set` raises `TypeError` if any element is unhashable (a
nested list or object); non-string hashable elements (numbers, booleans,
null) enter the set but can never compare equal to a path string, so only
the string elements are kept.  Iterating an object yields its string
keys; iterating a string yields its one-character substrings.  A number,
boolean or null is not iterable, so `set` raises.  `none` models the
raising cases. -/
def manifestStrings : PyJson → Option (List String)
  | PyJson.arr xs =>
    if xs.any (fun x => match x with
        | PyJson.arr _ => true
        | PyJson.obj _ => true
        | _ => false) then none
    else
      some (xs.filterMap (fun x => match x with
        | PyJson.str s => some s
        | _ => none))
  | PyJson.obj kvs => some (kvs.map Prod.fst)
  | PyJson.str s => some (s.data.map (fun c => String.mk [c]))
  | _ => none

/-- The manifest load of `clean_orphaned_assets`: `none` when the load
raises — the file is missing or its text is not valid JSON (the outer
`none`), or `set()` raises on the parsed value (`manifestStrings`).  Any
other manifest, including one that is not a list of strings, loads
without error. -/
def loadManifest (source : Option PyJson) : Option (List String) :=
  source.bind manifestStrings

/-- Embeds `clean_orphaned_assets` end to end from the raw manifest
sources: `none` models a missing or JSON-invalid manifest file. -/
def cleanOrphanedAssetsFromJson (manifestPublic manifestPrivate : Option PyJson)
    (walk : List String) (unlinkOk : String → Bool) : CleanResult :=
  cleanOrphanedAssets (loadManifest manifestPublic)
    (loadManifest manifestPrivate) walk unlinkOk

/-- When every unlink succeeds, the deletion loop removes exactly the
walked files whose root-relative path is outside the manifest, and
finishes without error. -/
theorem deleteLoop_all_ok (manifest : List String) (walk : List String) :
    deleteLoop manifest (fun _ => true) walk
      = (walk.filter (fun p => decide (relPath p ∉ manifest)), none) := by
  induction walk with
  | nil => rfl
  | cons p rest ih =>
    by_cases h : relPath p ∈ manifest
    · simp [deleteLoop, h, ih, List.filter_cons]
    · simp [deleteLoop, h, ih, List.filter_cons]

/-- On a failing unlink the deletion loop stops at the failing file: the
orphans before it (all deletable by hypothesis) are deleted, the error is
returned, and nothing after the failing file is visited. -/
theorem deleteLoop_failure (manifest : List String) (unlinkOk : String → Bool)
    (pre : List String) (f : String) (post : List String)
    (hpre : ∀ p ∈ pre, relPath p ∈ manifest ∨ unlinkOk p = true)
    (hf1 : relPath f ∉ manifest) (hf2 : unlinkOk f = false) :
    deleteLoop manifest unlinkOk (pre ++ f :: post)
      = (pre.filter (fun p => decide (relPath p ∉ manifest)),
         some (CleanErr.unlinkFailed f)) := by
  induction pre with
  | nil => simp [deleteLoop, hf1, hf2]
  | cons p rest ih =>
    have hp := hpre p (List.mem_cons_self p rest)
    have hrest : ∀ q ∈ rest, relPath q ∈ manifest ∨ unlinkOk q = true :=
      fun q hq => hpre q (List.mem_cons_of_mem p hq)
    by_cases h : relPath p ∈ manifest
    · simp [deleteLoop, h, ih hrest, List.filter_cons]
    · have hok : unlinkOk p = true := hp.resolve_left h
      simp [deleteLoop, h, hok, ih hrest, List.filter_cons]

/-- Claim C1: with both manifests loaded and every unlink succeeding,
reconciliation deletes exactly the present files whose root-relative path
is outside the union of the public and private manifests; every present
file whose root-relative path is in the union is left untouched. -/
theorem clean_orphaned_assets_deletes_exactly_orphans
    (m1 m2 relPresent : List String) :
    (cleanOrphanedAssets (some m1) (some m2)
        (relPresent.map (fun r => "build/assets/" ++ r)) (fun _ => true)).deleted
      = (relPresent.filter (fun r => decide (r ∉ m1 ∧ r ∉ m2))).map
          (fun r => "build/assets/" ++ r) := by
  show (deleteLoop (m1 ++ m2) (fun _ => true) _).1 = _
  rw [deleteLoop_all_ok]
  show List.filter _ (List.map _ _) = _
  rw [List.filter_map]
  congr 1
  apply List.filter_congr
  intro r _
  simp [Function.comp, relPath_under_root, not_or]

/-- Claim C5 (counterexample): with an empty manifest, walked files
`a` then `b` (both orphans) and `os.unlink` failing on `a`, the run aborts
with the unlink error: the remaining orphan `b` is not processed, refuting
that reconciliation continues past a deletion failure. -/
theorem clean_orphaned_assets_unlink_failure_cex :
    cleanOrphanedAssets (some []) (some [])
        ["build/assets/a", "build/assets/b"]
        (fun p => decide (p ≠ "build/assets/a"))
      = { deleted := [], err := some (CleanErr.unlinkFailed "build/assets/a"),
          pruneRan := false }
    ∧ "build/assets/b" ∉ (cleanOrphanedAssets (some []) (some [])
        ["build/assets/a", "build/assets/b"]
        (fun p => decide (p ≠ "build/assets/a"))).deleted := by
  constructor
  · decide
  · decide

/-- Claim C5 (amended): a failure to delete one orphaned file aborts the
reconciliation with that error: orphans deleted before the failure stay
deleted, the remaining files are not processed, and the directory-pruning
pass does not run. -/
theorem clean_orphaned_assets_unlink_failure_aborts
    (m1 m2 : List String) (unlinkOk : String → Bool)
    (pre : List String) (f : String) (post : List String)
    (hpre : ∀ p ∈ pre, relPath p ∈ m1 ++ m2 ∨ unlinkOk p = true)
    (hf1 : relPath f ∉ m1 ++ m2) (hf2 : unlinkOk f = false) :
    cleanOrphanedAssets (some m1) (some m2) (pre ++ f :: post) unlinkOk
      = { deleted := pre.filter (fun p => decide (relPath p ∉ m1 ++ m2)),
          err := some (CleanErr.unlinkFailed f), pruneRan := false } := by
  show (let r := deleteLoop (m1 ++ m2) unlinkOk (pre ++ f :: post)
        ({ deleted := r.1, err := r.2, pruneRan := r.2.isNone } : CleanResult)) = _
  rw [deleteLoop_failure (m1 ++ m2) unlinkOk pre f post hpre hf1 hf2]
  rfl

/-- Claim C5 (witness): a concrete aborted run, with one declared file
kept, one orphan deleted before the failure, and one orphan left behind. -/
theorem clean_orphaned_assets_unlink_failure_aborts_witness :
    cleanOrphanedAssets (some ["keep.txt"]) (some [])
        (["build/assets/keep.txt", "build/assets/p"]
          ++ "build/assets/a" :: ["build/assets/b"])
        (fun p => decide (p ≠ "build/assets/a"))
      = { deleted := ["build/assets/p"],
          err := some (CleanErr.unlinkFailed "build/assets/a"),
          pruneRan := false } := by
  have h := clean_orphaned_assets_unlink_failure_aborts ["keep.txt"] []
    (fun p => decide (p ≠ "build/assets/a"))
    ["build/assets/keep.txt", "build/assets/p"] "build/assets/a"
    ["build/assets/b"] (by decide) (by decide) (by decide)
  exact h.trans (by decide)

/-- Claim C7 (counterexample): a public manifest whose JSON is the list
`[1]` — a list of numbers, not parseable as a list of strings — does not
make the operation fail: `set(json.loads(...))` succeeds on it, the walk
runs, and a present file is deleted.  The operation mutates instead of
failing, refuting the claim for this manifest. -/
theorem clean_orphaned_assets_nonstring_manifest_mutates_cex :
    cleanOrphanedAssetsFromJson (some (PyJson.arr [PyJson.num 1]))
        (some (PyJson.arr [])) ["build/assets/x"] (fun _ => true)
      = { deleted := ["build/assets/x"], err := none, pruneRan := true } := by
  decide

/-- Claim C7 (amended): when loading either manifest raises — the file is
missing, its text is not valid JSON, or `set()` raises on the parsed
value (a number, boolean or null, or a list with a nested list or object
element) — the operation fails before any mutation: no file is deleted
and the directory-pruning pass never runs.  A manifest that loads as any
other JSON value, including one that is not a list of strings, does not
fail, and reconciliation proceeds with its string elements. -/
theorem clean_orphaned_assets_load_error_no_mutation
    (manifestPublic manifestPrivate : Option PyJson)
    (walk : List String) (unlinkOk : String → Bool)
    (h : loadManifest manifestPublic = none
      ∨ loadManifest manifestPrivate = none) :
    cleanOrphanedAssetsFromJson manifestPublic manifestPrivate walk unlinkOk
      = { deleted := [], err := some CleanErr.manifestRead, pruneRan := false } := by
  unfold cleanOrphanedAssetsFromJson
  rcases h with h | h
  · rw [h]
    rfl
  · rw [h]
    cases loadManifest manifestPublic <;> rfl

/-- Claim C7 (witness): a concrete run with the public manifest parsing
to the non-iterable JSON value `3` deletes nothing and never reaches the
pruning pass. -/
theorem clean_orphaned_assets_load_error_no_mutation_witness :
    cleanOrphanedAssetsFromJson (some (PyJson.num 3)) (some (PyJson.arr []))
        ["build/assets/x", "build/assets/y"] (fun _ => true)
      = { deleted := [], err := some CleanErr.manifestRead, pruneRan := false } :=
  clean_orphaned_assets_load_error_no_mutation (some (PyJson.num 3))
    (some (PyJson.arr [])) ["build/assets/x", "build/assets/y"]
    (fun _ => true) (Or.inl rfl)

/-! ## Directory pruning

After the deletion loop, `clean_orphaned_assets` runs
`find build/assets -depth -empty -type d -delete`.  `find -depth` visits
every directory after all of its descendants; `-empty -type d -delete`
deletes each directory that is empty when visited.  The filesystem is
modelled by the list of surviving files and the list of directories, each
path as its list of components.
-/

/-- A filesystem path, as its list of components. -/
abbrev FsPath := List String

/-- The directory `d` is a proper ancestor of the path `p`: a strict
component-wise ancestor. -/
def properUnder (d p : FsPath) : Bool := decide (d <+: p ∧ d ≠ p)

/-- Some file of `files` lies strictly below the directory `d`. -/
def hasFileUnder (files : List FsPath) (d : FsPath) : Bool :=
  files.any (fun f => properUnder d f)

/-- The `find -empty` test at visit time: the directory `d` holds no
surviving file and no other directory of the current tree. -/
def dirEmpty (files dirs : List FsPath) (d : FsPath) : Bool :=
  files.all (fun f => ! properUnder d f)
    && dirs.all (fun e => decide (e = d) || ! properUnder d e)

/-- Deleting a directory entry from the current listing (directory
listings hold each path once). -/
def removeDir (dirs : List FsPath) (d : FsPath) : List FsPath :=
  dirs.filter (fun e => decide (e ≠ d))

/-- Embeds `find build/assets -depth -empty -type d -delete`, run after
the deletion loop: `files` are the files that survived deletion, `dirs`
the directories on disk, `order` the visit order (with `-depth`, every
directory is visited after all of its descendants).  Each directory empty
at visit time is deleted. -/
def pruneDirs (files : List FsPath) : List FsPath → List FsPath → List FsPath
  | dirs, [] => dirs
  | dirs, d :: order =>
    if dirEmpty files dirs d then pruneDirs files (removeDir dirs d) order
    else pruneDirs files dirs order

/-- Proper ancestry of paths is transitive. -/
theorem properUnder_trans {a b c : FsPath} (h1 : properUnder a b = true)
    (h2 : properUnder b c = true) : properUnder a c = true := by
  simp only [properUnder, decide_eq_true_eq] at h1 h2 ⊢
  obtain ⟨hab, hne1⟩ := h1
  obtain ⟨hbc, hne2⟩ := h2
  refine ⟨hab.trans hbc, fun h => ?_⟩
  have l1 : a.length < b.length :=
    lt_of_le_of_ne hab.length_le fun hl => hne1 (hab.eq_of_length hl)
  have l2 : b.length < c.length :=
    lt_of_le_of_ne hbc.length_le fun hl => hne2 (hbc.eq_of_length hl)
  rw [h] at l1
  omega

/-- Pruning only deletes: every surviving directory was on disk. -/
theorem pruneDirs_subset (files : List FsPath) :
    ∀ (order dirs : List FsPath), pruneDirs files dirs order ⊆ dirs := by
  intro order
  induction order with
  | nil => intro dirs; simp [pruneDirs]
  | cons e rest ih =>
    intro dirs
    by_cases h : dirEmpty files dirs e = true
    · simp only [pruneDirs, h, if_true]
      intro x hx
      exact (List.mem_filter.mp (ih (removeDir dirs e) hx)).1
    · simp only [pruneDirs, h, if_false, Bool.false_eq_true]
      exact ih dirs

/-- A directory with a surviving file below it is never deleted by the
pruning pass. -/
theorem pruneDirs_keeps_nonempty (files : List FsPath) :
    ∀ (order dirs : List FsPath) (d : FsPath), d ∈ dirs →
      hasFileUnder files d = true → d ∈ pruneDirs files dirs order := by
  intro order
  induction order with
  | nil => intro dirs d hd _; simpa [pruneDirs] using hd
  | cons e rest ih =>
    intro dirs d hd hfile
    by_cases h : dirEmpty files dirs e = true
    · simp only [pruneDirs, h, if_true]
      refine ih (removeDir dirs e) d ?_ hfile
      have hne : d ≠ e := by
        intro hde
        subst hde
        simp only [dirEmpty, Bool.and_eq_true, List.all_eq_true] at h
        simp only [hasFileUnder, List.any_eq_true] at hfile
        obtain ⟨f, hf, hpf⟩ := hfile
        have := h.1 f hf
        simp [hpf] at this
      simp [removeDir, List.mem_filter, hd, hne]
    · simp only [pruneDirs, h, if_false, Bool.false_eq_true]
      exact ih dirs d hd hfile

/-- After a children-first pruning pass, every surviving directory has a
surviving file below it.  The invariant hypothesis says every directory on
disk is either still to be visited or already known non-empty. -/
theorem pruneDirs_survivors_have_files (files : List FsPath) :
    ∀ (order dirs : List FsPath), dirs.Nodup → order.Nodup →
      order.Pairwise (fun a b => properUnder a b = false) →
      (∀ e ∈ dirs, e ∈ order ∨ hasFileUnder files e = true) →
      ∀ d ∈ pruneDirs files dirs order, hasFileUnder files d = true := by
  intro order
  induction order with
  | nil =>
    intro dirs _ _ _ hinv d hd
    simp only [pruneDirs] at hd
    rcases hinv d hd with h | h
    · simp at h
    · exact h
  | cons e rest ih =>
    intro dirs hdn hon hpw hinv d hd
    have hon2 : rest.Nodup := hon.of_cons
    have hpw2 : rest.Pairwise (fun a b => properUnder a b = false) := hpw.of_cons
    by_cases h : dirEmpty files dirs e = true
    · simp only [pruneDirs, h, if_true] at hd
      refine ih (removeDir dirs e) (hdn.filter _) hon2 hpw2 ?_ d hd
      intro q hq
      have hq2 : q ∈ dirs ∧ q ≠ e := by
        simpa [removeDir, List.mem_filter] using hq
      rcases hinv q hq2.1 with hq1 | hq1
      · rcases List.mem_cons.mp hq1 with rfl | hq3
        · exact absurd rfl hq2.2
        · exact Or.inl hq3
      · exact Or.inr hq1
    · simp only [pruneDirs, h, if_false, Bool.false_eq_true] at hd
      refine ih dirs hdn hon2 hpw2 ?_ d hd
      intro q hq
      rcases hinv q hq with hq1 | hq1
      · rcases List.mem_cons.mp hq1 with rfl | hq3
        · right
          simp only [dirEmpty, Bool.and_eq_true, List.all_eq_true, not_and_or] at h
          rcases h with h1 | h1

          · push_neg at h1
            obtain ⟨f, hf, hpf⟩ := h1
            simp only [hasFileUnder, List.any_eq_true]
            exact ⟨f, hf, by simpa using hpf⟩
          · push_neg at h1
            obtain ⟨e2, he2, hprop⟩ := h1
            have hne : e2 ≠ q ∧ properUnder q e2 = true := by
              simpa [not_or] using hprop
            rcases hinv e2 he2 with h2 | h2
            · rcases List.mem_cons.mp h2 with rfl | h3
              · exact absurd rfl hne.1
              · have hfalse := (List.pairwise_cons.mp hpw).1 e2 h3
                rw [hfalse] at hne
                exact absurd hne.2 (by simp)
            · simp only [hasFileUnder, List.any_eq_true] at h2 ⊢
              obtain ⟨f, hf, hpf⟩ := h2
              exact ⟨f, hf, properUnder_trans hne.2 hpf⟩
        · exact Or.inl hq3
      · exact Or.inr hq1

/-- Claim C6: after the deletion phase, a children-first pruning pass over
the directories on disk (what `find -depth -empty -type d -delete` does)
keeps a directory if and only if some surviving file lies below it: a
directory all of whose descendants were deleted is removed, and a
directory still containing any file is kept. -/
theorem prune_keeps_exactly_dirs_with_file (files dirs order : List FsPath)
    (hdn : dirs.Nodup) (hperm : order.Perm dirs)
    (hpw : order.Pairwise (fun a b => properUnder a b = false)) :
    ∀ d, d ∈ pruneDirs files dirs order
      ↔ d ∈ dirs ∧ hasFileUnder files d = true := by
  intro d
  constructor
  · intro hd
    refine ⟨pruneDirs_subset files order dirs hd, ?_⟩
    exact pruneDirs_survivors_have_files files order dirs hdn
      (hperm.nodup_iff.mpr hdn) hpw
      (fun e he => Or.inl (hperm.mem_iff.mpr he)) d hd
  · intro hd
    exact pruneDirs_keeps_nonempty files order dirs d hd.1 hd.2

/-- Claim C6 (witness): with the file `a/x.bin` surviving, pruning the
directories `a` and `a/empty` deepest-first keeps `a` (it still holds a
file); the same run deletes `a/empty`. -/
theorem prune_keeps_exactly_dirs_with_file_witness :
    (["a"] ∈ pruneDirs [["a", "x.bin"]] [["a"], ["a", "empty"]]
        [["a", "empty"], ["a"]]
      ↔ ["a"] ∈ [["a"], ["a", "empty"]]
        ∧ hasFileUnder [["a", "x.bin"]] ["a"] = true)
    ∧ (["a", "empty"] ∈ pruneDirs [["a", "x.bin"]] [["a"], ["a", "empty"]]
        [["a", "empty"], ["a"]]
      ↔ ["a", "empty"] ∈ [["a"], ["a", "empty"]]
        ∧ hasFileUnder [["a", "x.bin"]] ["a", "empty"] = true) :=
  ⟨prune_keeps_exactly_dirs_with_file [["a", "x.bin"]] [["a"], ["a", "empty"]]
      [["a", "empty"], ["a"]] (by decide) (by decide) (by decide) ["a"],
   prune_keeps_exactly_dirs_with_file [["a", "x.bin"]] [["a"], ["a", "empty"]]
      [["a", "empty"], ["a"]] (by decide) (by decide) (by decide) ["a", "empty"]⟩

/-! ## update_cmake_prefab_lib

The source validates `sys.argv` (expecting 5 entries: interpreter,
command, buildtype, mode, build dir), rejects a buildtype outside
standard/server and a mode outside debug/release with `CleanError`, runs
`make` on the prefab target, and copies the built library into
`builddir/prefablib` only when the copy there is missing or strictly older
than the freshly built target. -/

/-- External commands run by `update_cmake_prefab_lib`: the `make` build,
`os.makedirs` on the destination directory, and the `cp` of the built
library into it. -/
inductive PrefabEffect : Type where
  | runMake : String → PrefabEffect
  | makeDirs : String → PrefabEffect
  | copyFile : String → String → PrefabEffect
deriving DecidableEq, Repr

/-- The filesystem facts `update_cmake_prefab_lib` consults: the current
prefab platform name, the modification time of the freshly built target
(`time1`), the modification time of `builddir/prefablib/libballistica_plus.a`
when that file exists (`time2`), and whether the destination directory
exists. -/
structure PrefabEnv : Type where
  platform : String
  targetMtime : Int
  libpathMtime : Option Int
  libdirExists : Bool

/-- Embeds the staleness decision of `update_cmake_prefab_lib`:
`update = True`; if the destination exists and `time1 <= time2`,
`update = False`. -/
def stageUpdate (time1 : Int) (libpathMtime : Option Int) : Bool :=
  match libpathMtime with
  | none => true
  | some time2 => if time1 ≤ time2 then false else true

/-- The `make` target string built by `update_cmake_prefab_lib` from the
platform, the buildtype suffix and the mode. -/
def prefabTarget (buildtype mode : String) (env : PrefabEnv) : String :=
  "build/prefab/lib/" ++ env.platform
    ++ (if buildtype = "server" then "_server" else "_gui")
    ++ "/" ++ mode ++ "/libballistica_plus.a"

/-- The effects of a validated `update_cmake_prefab_lib` run, in order:
the `make` of the prefab target, then — only when the staleness decision
says to update — the `makedirs` of a missing destination directory and the
`cp` of the target into it. -/
def prefabEffects (buildtype mode builddir : String) (env : PrefabEnv) :
    List PrefabEffect :=
  PrefabEffect.runMake (prefabTarget buildtype mode env) ::
    (if stageUpdate env.targetMtime env.libpathMtime then
      (if env.libdirExists then []
        else [PrefabEffect.makeDirs (builddir ++ "/prefablib")])
        ++ [PrefabEffect.copyFile (prefabTarget buildtype mode env)
              (builddir ++ "/prefablib")]
    else [])

/-- Embeds `update_cmake_prefab_lib`: the `sys.argv` length check, the
buildtype and mode validation, then the effects of the build-and-stage
body.  Returns the effects performed in order and whether the copy
happened, or the `CleanError` message. -/
def updateCmakePrefabLib (argv : List String) (env : PrefabEnv) :
    Except String (List PrefabEffect × Bool) :=
  match argv with
  | [_, _, buildtype, mode, builddir] =>
    if buildtype ∉ (["standard", "server"] : List String) then
      Except.error ("Invalid buildtype: " ++ buildtype)
    else if mode ∉ (["debug", "release"] : List String) then
      Except.error ("Invalid mode: " ++ mode)
    else
      Except.ok (prefabEffects buildtype mode builddir env,
        stageUpdate env.targetMtime env.libpathMtime)
  | _ => Except.error "Expected 3 args (standard/server, debug/release, build-dir)"

/-- A run with five arguments, a valid buildtype and a valid mode passes
validation and returns the effect list and the staleness decision. -/
theorem updateCmakePrefabLib_valid_eq
    (a0 a1 buildtype mode builddir : String) (env : PrefabEnv)
    (hb : buildtype ∈ (["standard", "server"] : List String))
    (hm : mode ∈ (["debug", "release"] : List String)) :
    updateCmakePrefabLib [a0, a1, buildtype, mode, builddir] env
      = Except.ok (prefabEffects buildtype mode builddir env,
          stageUpdate env.targetMtime env.libpathMtime) := by
  show (if buildtype ∉ (["standard", "server"] : List String) then _
    else if mode ∉ (["debug", "release"] : List String) then _ else _) = _
  rw [if_neg (not_not_intro hb), if_neg (not_not_intro hm)]

/-- Claim C2: with valid arguments, staging succeeds and performs the copy
exactly when the destination is missing or its modification time is
strictly less than the built target: on an equal or newer destination no
copy occurs. -/
theorem update_cmake_prefab_lib_copies_iff_missing_or_older
    (a0 a1 buildtype mode builddir : String) (env : PrefabEnv)
    (hb : buildtype ∈ (["standard", "server"] : List String))
    (hm : mode ∈ (["debug", "release"] : List String)) :
    ∃ fx copied,
      updateCmakePrefabLib [a0, a1, buildtype, mode, builddir] env
        = Except.ok (fx, copied)
      ∧ ((∃ s d, PrefabEffect.copyFile s d ∈ fx)
          ↔ env.libpathMtime = none
            ∨ ∃ t2, env.libpathMtime = some t2 ∧ t2 < env.targetMtime) := by
  refine ⟨prefabEffects buildtype mode builddir env,
    stageUpdate env.targetMtime env.libpathMtime,
    updateCmakePrefabLib_valid_eq a0 a1 buildtype mode builddir env hb hm, ?_⟩
  cases hmt : env.libpathMtime with
  | none =>
    constructor
    · intro _
      exact Or.inl rfl
    · intro _
      refine ⟨prefabTarget buildtype mode env, builddir ++ "/prefablib", ?_⟩
      simp [prefabEffects, stageUpdate, hmt]
  | some t2 =>
    by_cases hle : env.targetMtime ≤ t2
    · constructor
      · rintro ⟨s, d, hs⟩
        simp [prefabEffects, stageUpdate, hmt, hle] at hs
      · rintro (h | ⟨t, ht, hlt⟩)
        · simp at h
        · injection ht with ht
          omega
    · constructor
      · intro _
        exact Or.inr ⟨t2, rfl, by omega⟩
      · intro _
        refine ⟨prefabTarget buildtype mode env, builddir ++ "/prefablib", ?_⟩
        simp [prefabEffects, stageUpdate, hmt, hle]

/-- Claim C2 (witness): a concrete run (destination exists, strictly
older than the target) performing the copy. -/
theorem update_cmake_prefab_lib_copies_iff_missing_or_older_witness :
    ∃ fx copied,
      updateCmakePrefabLib ["python", "pcommand", "standard", "debug", "bld"]
          { platform := "linux_x86_64", targetMtime := 10,
            libpathMtime := some 3, libdirExists := true }
        = Except.ok (fx, copied)
      ∧ ((∃ s d, PrefabEffect.copyFile s d ∈ fx)
          ↔ (some 3 : Option Int) = none
            ∨ ∃ t2, (some 3 : Option Int) = some t2 ∧ t2 < (10 : Int)) :=
  update_cmake_prefab_lib_copies_iff_missing_or_older
    "python" "pcommand" "standard" "debug" "bld"
    { platform := "linux_x86_64", targetMtime := 10,
      libpathMtime := some 3, libdirExists := true }
    (by decide) (by decide)

/-- Claim C9: when the destination exists and is at least as new as the
built target, the run performs the `make` and nothing else: the
destination directory is not created and the destination file is not
written. -/
theorem update_cmake_prefab_lib_noop_frame
    (a0 a1 buildtype mode builddir : String) (env : PrefabEnv) (t2 : Int)
    (hb : buildtype ∈ (["standard", "server"] : List String))
    (hm : mode ∈ (["debug", "release"] : List String))
    (hex : env.libpathMtime = some t2) (hle : env.targetMtime ≤ t2) :
    ∃ tgt, updateCmakePrefabLib [a0, a1, buildtype, mode, builddir] env
      = Except.ok ([PrefabEffect.runMake tgt], false) := by
  refine ⟨prefabTarget buildtype mode env, ?_⟩
  rw [updateCmakePrefabLib_valid_eq a0 a1 buildtype mode builddir env hb hm]
  simp [prefabEffects, stageUpdate, hex, hle]

/-- Claim C9 (witness): a concrete run with an up-to-date destination
performs only the `make`. -/
theorem update_cmake_prefab_lib_noop_frame_witness :
    ∃ tgt,
      updateCmakePrefabLib ["python", "pcommand", "server", "release", "bld"]
          { platform := "linux_x86_64", targetMtime := 7,
            libpathMtime := some 7, libdirExists := false }
        = Except.ok ([PrefabEffect.runMake tgt], false) :=
  update_cmake_prefab_lib_noop_frame
    "python" "pcommand" "server" "release" "bld"
    { platform := "linux_x86_64", targetMtime := 7,
      libpathMtime := some 7, libdirExists := false }
    7 (by decide) (by decide) (by decide) (by decide)

/-- Claim C10: with five arguments but a buildtype outside
standard/server or a mode outside debug/release, the run fails with a
`CleanError` before performing any effect: no `make`, no `makedirs`, no
copy. -/
theorem update_cmake_prefab_lib_validates_args
    (a0 a1 buildtype mode builddir : String) (env : PrefabEnv)
    (h : buildtype ∉ (["standard", "server"] : List String)
      ∨ mode ∉ (["debug", "release"] : List String)) :
    ∃ msg, updateCmakePrefabLib [a0, a1, buildtype, mode, builddir] env
      = Except.error msg := by
  show ∃ msg, (if buildtype ∉ (["standard", "server"] : List String) then _
    else if mode ∉ (["debug", "release"] : List String) then _ else _)
      = Except.error msg
  rcases h with h | h
  · exact ⟨_, by rw [if_pos h]⟩
  · by_cases hb : buildtype ∈ (["standard", "server"] : List String)
    · exact ⟨_, by rw [if_neg (not_not_intro hb), if_pos h]⟩
    · exact ⟨_, by rw [if_pos hb]⟩

/-- Claim C10 (witness): a concrete run with an invalid mode fails. -/
theorem update_cmake_prefab_lib_validates_args_witness :
    ∃ msg,
      updateCmakePrefabLib ["python", "pcommand", "standard", "fast", "bld"]
          { platform := "linux_x86_64", targetMtime := 0,
            libpathMtime := none, libdirExists := false }
        = Except.error msg :=
  update_cmake_prefab_lib_validates_args
    "python" "pcommand" "standard" "fast" "bld"
    { platform := "linux_x86_64", targetMtime := 0,
      libpathMtime := none, libdirExists := false }
    (Or.inr (by decide))


/-! ## win_ci_install_prereqs

The source starts from three hard-coded needed targets, reads the public
and private meta-manifests (JSON lists of target strings), adds every
entry matching one of two pattern rules to the needed set (a Python set,
deduplicating), and calls `get_target` on each member; a raising
`get_target` ends the loop. -/

/-- The hard-coded prefab library directory of the Windows CI build. -/
def libDbgWin32 : String := "build/prefab/lib/windows/Debug_Win32"

/-- The always-needed targets hard-coded in `win_ci_install_prereqs`. -/
def fixedTargets : List String :=
  [libDbgWin32 ++ "/BallisticaKitGenericPlus.lib",
   libDbgWin32 ++ "/BallisticaKitGenericPlus.pdb",
   "ballisticakit-windows/Generic/BallisticaKit.ico"]

/-- Embeds the pattern filter of `win_ci_install_prereqs`: a generated
native source (under `src/ballistica/` with a `/mgen/` component) or a
generated bound-language module (under `src/assets/ba_data/python/` with
a `/_mgen/` component). -/
def matchesMetaRule (target : String) : Bool :=
  (strStartsWith "src/ballistica/" target && strContains "/mgen/" target)
    || (strStartsWith "src/assets/ba_data/python/" target
        && strContains "/_mgen/" target)

/-- Python `set.add`: insert the target unless already present. -/
def addTarget (acc : List String) (t : String) : List String :=
  if t ∈ acc then acc else acc ++ [t]

/-- Embeds the meta-manifest scan of `win_ci_install_prereqs`, starting
from the initial target set `fixed`: every entry of the concatenated
public and private meta-manifests matching a pattern rule is added to the
set. -/
def resolveFetchSet (fixed metaPublic metaPrivate : List String) :
    List String :=
  (metaPublic ++ metaPrivate).foldl
    (fun acc t => if matchesMetaRule t then addTarget acc t else acc) fixed

/-- The needed target set of `win_ci_install_prereqs`. -/
def neededTargets (metaPublic metaPrivate : List String) : List String :=
  resolveFetchSet fixedTargets metaPublic metaPrivate

/-- Embeds the fetch loop of `win_ci_install_prereqs`: `get_target` on
each needed target in order, `fetchErr t = some e` meaning the fetch of
`t` raises `e`.  The loop ends at the first failure.  Returns the targets
fetched and the error, if any. -/
def fetchLoop (fetchErr : String → Option String) :
    List String → List String × Option String
  | [] => ([], none)
  | t :: rest =>
    match fetchErr t with
    | some e => ([], some e)
    | none =>
      let r := fetchLoop fetchErr rest
      (t :: r.1, r.2)

/-- Embeds `win_ci_install_prereqs` end to end, with both meta-manifests
loaded and the needed set iterated in its build order. -/
def winCiInstallPrereqs (metaPublic metaPrivate : List String)
    (fetchErr : String → Option String) : List String × Option String :=
  fetchLoop fetchErr (neededTargets metaPublic metaPrivate)

/-- Membership in a Python-set insertion. -/
theorem mem_addTarget (acc : List String) (u t : String) :
    t ∈ addTarget acc u ↔ t ∈ acc ∨ t = u := by
  unfold addTarget
  by_cases hu : u ∈ acc
  · rw [if_pos hu]
    constructor
    · exact Or.inl
    · rintro (h | rfl)
      · exact h
      · exact hu
  · rw [if_neg hu]
    simp

/-- A Python-set insertion keeps the accumulator duplicate-free. -/
theorem addTarget_nodup {acc : List String} (h : acc.Nodup) (u : String) :
    (addTarget acc u).Nodup := by
  unfold addTarget
  by_cases hu : u ∈ acc
  · rwa [if_pos hu]
  · rw [if_neg hu]
    simp [List.nodup_append, h, hu]

/-- Membership in the meta-manifest scan: a target is in the result set
exactly when it is in the initial set or is a scanned entry matching a
pattern rule. -/
theorem mem_resolveFetchSet (entries : List String) :
    ∀ (acc : List String) (t : String),
      t ∈ entries.foldl
          (fun acc u => if matchesMetaRule u then addTarget acc u else acc) acc
        ↔ t ∈ acc ∨ (matchesMetaRule t = true ∧ t ∈ entries) := by
  induction entries with
  | nil => simp
  | cons u rest ih =>
    intro acc t
    simp only [List.foldl_cons]
    by_cases hu : matchesMetaRule u = true
    · rw [if_pos hu, ih, mem_addTarget]
      constructor
      · rintro ((h | rfl) | ⟨h1, h2⟩)
        · exact Or.inl h
        · exact Or.inr ⟨hu, List.mem_cons_self t rest⟩
        · exact Or.inr ⟨h1, List.mem_cons_of_mem u h2⟩
      · rintro (h | ⟨h1, h2⟩)
        · exact Or.inl (Or.inl h)
        · rcases List.mem_cons.mp h2 with rfl | h3
          · exact Or.inl (Or.inr rfl)
          · exact Or.inr ⟨h1, h3⟩
    · rw [if_neg hu, ih]
      constructor
      · rintro (h | ⟨h1, h2⟩)
        · exact Or.inl h
        · exact Or.inr ⟨h1, List.mem_cons_of_mem u h2⟩
      · rintro (h | ⟨h1, h2⟩)
        · exact Or.inl h
        · rcases List.mem_cons.mp h2 with rfl | h3
          · exact absurd h1 hu
          · exact Or.inr ⟨h1, h3⟩

/-- The meta-manifest scan never introduces a duplicate: starting from a
duplicate-free set it stays duplicate-free (the Python needed set). -/
theorem resolveFetchSet_nodup (entries : List String) :
    ∀ (acc : List String), acc.Nodup →
      (entries.foldl
        (fun acc u => if matchesMetaRule u then addTarget acc u else acc)
        acc).Nodup := by
  induction entries with
  | nil => intro acc h; simpa using h
  | cons u rest ih =>
    intro acc h
    simp only [List.foldl_cons]
    by_cases hu : matchesMetaRule u = true
    · rw [if_pos hu]
      exact ih (addTarget acc u) (addTarget_nodup h u)
    · rw [if_neg hu]
      exact ih acc h

/-- Claim C3: a meta-manifest entry matching neither pattern rule is
excluded from the fetch set (it is fetched only if it is one of the fixed
targets), and an entry matching a rule that appears in both the public
and the private meta-manifest occurs exactly once in the fetch set, so it
is fetched exactly once. -/
theorem win_ci_prereq_filter_excludes_and_dedupes
    (metaPublic metaPrivate : List String) (t : String) :
    (matchesMetaRule t = false →
      (t ∈ neededTargets metaPublic metaPrivate ↔ t ∈ fixedTargets))
    ∧ (matchesMetaRule t = true → t ∈ metaPublic → t ∈ metaPrivate →
        (neededTargets metaPublic metaPrivate).count t = 1) := by
  constructor
  · intro hf
    rw [neededTargets, resolveFetchSet, mem_resolveFetchSet]
    simp [hf]
  · intro ht h1 h2
    have hmem : t ∈ neededTargets metaPublic metaPrivate := by
      rw [neededTargets, resolveFetchSet, mem_resolveFetchSet]
      exact Or.inr ⟨ht, List.mem_append.mpr (Or.inl h1)⟩
    have hnd : (neededTargets metaPublic metaPrivate).Nodup :=
      resolveFetchSet_nodup (metaPublic ++ metaPrivate) fixedTargets (by decide)
    exact List.count_eq_one_of_mem hnd hmem

/-- Claim C3 (witness): `docs/readme.md` matches neither rule and is kept
out of the fetch set; a generated source listed in both meta-manifests is
in the fetch set exactly once. -/
theorem win_ci_prereq_filter_excludes_and_dedupes_witness :
    ("docs/readme.md" ∈ neededTargets ["docs/readme.md"] ["docs/readme.md"]
        ↔ "docs/readme.md" ∈ fixedTargets)
    ∧ (neededTargets ["src/ballistica/core/mgen/a.h"]
          ["src/ballistica/core/mgen/a.h"]).count
        "src/ballistica/core/mgen/a.h" = 1 :=
  ⟨(win_ci_prereq_filter_excludes_and_dedupes ["docs/readme.md"]
      ["docs/readme.md"] "docs/readme.md").1 (by decide),
   (win_ci_prereq_filter_excludes_and_dedupes ["src/ballistica/core/mgen/a.h"]
      ["src/ballistica/core/mgen/a.h"] "src/ballistica/core/mgen/a.h").2
     (by decide) (by decide) (by decide)⟩

/-- Claim C4 (counterexample): in the spec scenario with fixed targets
`T1` and meta-manifest entries `gen/mgen/foo.h` and `docs/readme.md`, the
code does not put `gen/mgen/foo.h` in the fetch set: the entry lacks the
required `src/ballistica/` leading directory, so it matches neither
pattern rule, refuting the claimed fetch set. -/
theorem win_ci_scenario_fetch_set_cex :
    "gen/mgen/foo.h"
      ∉ resolveFetchSet ["T1"] ["gen/mgen/foo.h", "docs/readme.md"] [] := by
  decide

/-- Claim C4 (amended): with fixed targets `T1` and meta-manifest entries
`gen/mgen/foo.h` and `docs/readme.md`, prerequisite resolution produces
the fetch set containing only `T1`: both entries match neither pattern
rule (`gen/mgen/foo.h` lacks the required `src/ballistica/` leading
directory), so both are excluded. -/
theorem win_ci_scenario_fetch_set :
    resolveFetchSet ["T1"] ["gen/mgen/foo.h", "docs/readme.md"] [] = ["T1"] := by
  decide

/-- On the first failing fetch the loop stops: the targets before it are
fetched, the error is returned, nothing after it is visited. -/
theorem fetchLoop_failure (fetchErr : String → Option String)
    (pre : List String) (t : String) (post : List String) (e : String)
    (hpre : ∀ u ∈ pre, fetchErr u = none) (ht : fetchErr t = some e) :
    fetchLoop fetchErr (pre ++ t :: post) = (pre, some e) := by
  induction pre with
  | nil => simp [fetchLoop, ht]
  | cons u rest ih =>
    have hu := hpre u (List.mem_cons_self u rest)
    have hrest : ∀ v ∈ rest, fetchErr v = none :=
      fun v hv => hpre v (List.mem_cons_of_mem u hv)
    simp [fetchLoop, hu, ih hrest]

/-- Claim C8: a failing fetch is fatal to the whole resolution: the
targets before the failure are fetched, the error is surfaced to the
caller, and no target after the failure is fetched. -/
theorem win_ci_fetch_failure_fatal
    (metaPublic metaPrivate : List String) (fetchErr : String → Option String)
    (pre : List String) (t : String) (post : List String) (e : String)
    (hsplit : neededTargets metaPublic metaPrivate = pre ++ t :: post)
    (hpre : ∀ u ∈ pre, fetchErr u = none) (ht : fetchErr t = some e) :
    winCiInstallPrereqs metaPublic metaPrivate fetchErr = (pre, some e) := by
  rw [winCiInstallPrereqs, hsplit]
  exact fetchLoop_failure fetchErr pre t post e hpre ht

/-- Claim C8 (witness): with empty meta-manifests the needed set is the
three fixed targets; a fetch error on the second leaves the third
unfetched and surfaces the error. -/
theorem win_ci_fetch_failure_fatal_witness :
    winCiInstallPrereqs [] []
        (fun u =>
          if u = "build/prefab/lib/windows/Debug_Win32/BallisticaKitGenericPlus.pdb"
          then some "boom" else none)
      = (["build/prefab/lib/windows/Debug_Win32/BallisticaKitGenericPlus.lib"],
         some "boom") :=
  win_ci_fetch_failure_fatal [] []
    (fun u =>
      if u = "build/prefab/lib/windows/Debug_Win32/BallisticaKitGenericPlus.pdb"
      then some "boom" else none)
    ["build/prefab/lib/windows/Debug_Win32/BallisticaKitGenericPlus.lib"]
    "build/prefab/lib/windows/Debug_Win32/BallisticaKitGenericPlus.pdb"
    ["ballisticakit-windows/Generic/BallisticaKit.ico"] "boom"
    (by decide) (by decide) (by decide)

end Ballistica
